import Mathlib

/- Verification of the glulxe dual-mode random number generator
   (osdepend.c): the xoshiro128** core step mt_random, the SplitMix32
   seed expansion mt_seed_random, and the native/deterministic mode
   dispatch glulx_setrandom / glulx_random.  Machine integers (glui32,
   uint32_t) are modelled as Nat with explicit reduction modulo 2^32 at
   every operation that wraps in C; the C globals rand_use_native and
   mt_table are passed and returned explicitly. -/

/-- The 32-bit modulus: C unsigned arithmetic wraps at this value. -/
def M32 : Nat := 4294967296

/-- rotl from osdepend.c: rotate a 32-bit value left by k bits.
    C: (x << k) | (x >> (32 - k)) on uint32_t; the left shift wraps. -/
def rotl (x k : Nat) : Nat := ((x <<< k) % M32) ||| (x >>> (32 - k))

/-- The four-word xoshiro128** state, the C global uint32_t mt_table[4]. -/
structure MTState where
  s0 : Nat
  s1 : Nat
  s2 : Nat
  s3 : Nat
deriving DecidableEq

/-- All four words of the state are 32-bit values. -/
def MTState.Bounded (st : MTState) : Prop :=
  st.s0 < M32 ∧ st.s1 < M32 ∧ st.s2 < M32 ∧ st.s3 < M32

/-- The all-zero state: the C static initializer of mt_table, and the
    fixed point of the generator. -/
def mtZero : MTState := ⟨0, 0, 0, 0⟩

/-- The body of the loop in mt_seed_random: one SplitMix32 mix of the
    accumulator, all arithmetic wrapping at 32 bits. -/
def splitmix32 (s : Nat) : Nat :=
  let u1 := s ^^^ (s >>> 15)
  let u2 := (u1 * 0x85EBCA6B) % M32
  let u3 := u2 ^^^ (u2 >>> 13)
  let u4 := (u3 * 0xC2B2AE35) % M32
  u4 ^^^ (u4 >>> 16)

/-- mt_seed_random from osdepend.c: the four-iteration seeding loop,
    unrolled.  The accumulator seed is a glui32, so each += wraps. -/
def mt_seed_random (seed : Nat) : MTState :=
  let a1 := (seed + 0x9E3779B9) % M32
  let a2 := (a1 + 0x9E3779B9) % M32
  let a3 := (a2 + 0x9E3779B9) % M32
  let a4 := (a3 + 0x9E3779B9) % M32
  ⟨splitmix32 a1, splitmix32 a2, splitmix32 a3, splitmix32 a4⟩

/-- mt_random from osdepend.c: one xoshiro128** step.  The result is
    computed from the incoming state; the sequential xor-assignments of
    the C body are the let chain below. -/
def mt_random (st : MTState) : Nat × MTState :=
  let result := (rotl ((st.s1 * 5) % M32) 7 * 9) % M32
  let t := (st.s1 <<< 9) % M32
  let c1 := st.s2 ^^^ st.s0
  let d1 := st.s3 ^^^ st.s1
  let b1 := st.s1 ^^^ c1
  let a1 := st.s0 ^^^ d1
  let c2 := c1 ^^^ t
  let d2 := rotl d1 11
  (result, ⟨a1, b1, c2, d2⟩)

/-- The state part of n successive mt_random steps. -/
def mtIterate : Nat → MTState → MTState
  | 0, st => st
  | n + 1, st => mtIterate n (mt_random st).2

/-- The platform-native RNG behind the RAND_SET_SEED and RAND_GET
    macros: an opaque capability with its own state type.
    RAND_SET_SEED reseeds it from the clock or another entropy source;
    RAND_GET draws one 32-bit value.  This models the builds (OS_UNIX,
    Visual C++) whose native RNG state is separate from mt_table. -/
structure NativeSource (σ : Type) where
  RAND_SET_SEED : σ → σ
  RAND_GET : σ → Nat × σ

/-- The process-wide mutable state of osdepend.c: the rand_use_native
    flag, the mt_table array, and the native RNG state. -/
structure GlxState (σ : Type) where
  rand_use_native : Bool
  mt_table : MTState
  native : σ

/-- glulx_setrandom from osdepend.c.  The seed parameter is a glui32. -/
def glulx_setrandom {σ : Type} (ns : NativeSource σ) (seed : Nat)
    (st : GlxState σ) : GlxState σ :=
  if seed = 0 then
    { st with rand_use_native := true, native := ns.RAND_SET_SEED st.native }
  else
    { st with rand_use_native := false, mt_table := mt_seed_random seed }

/-- glulx_random from osdepend.c. -/
def glulx_random {σ : Type} (ns : NativeSource σ) (st : GlxState σ) :
    Nat × GlxState σ :=
  if st.rand_use_native then
    ((ns.RAND_GET st.native).1, { st with native := (ns.RAND_GET st.native).2 })
  else
    ((mt_random st.mt_table).1, { st with mt_table := (mt_random st.mt_table).2 })

/-- Outputs of n successive glulx_random calls. -/
def sysOutputs {σ : Type} (ns : NativeSource σ) : Nat → GlxState σ → List Nat
  | 0, _ => []
  | n + 1, st =>
    (glulx_random ns st).1 :: sysOutputs ns n (glulx_random ns st).2

/-- The state of a build where no native RNG macro is defined (and of
    the OS_STDC and non-MSC Windows builds): RAND_GET() is mt_random()
    and RAND_SET_SEED() is mt_seed_random(time(NULL)), so the only
    state besides the flag is mt_table itself. -/
structure FallbackState where
  rand_use_native : Bool
  mt_table : MTState
deriving DecidableEq

/-- glulx_setrandom in the fallback build; clock is the value that
    time(NULL) returns at the call. -/
def fallback_setrandom (clock seed : Nat) (_st : FallbackState) : FallbackState :=
  if seed = 0 then
    { rand_use_native := true, mt_table := mt_seed_random clock }
  else
    { rand_use_native := false, mt_table := mt_seed_random seed }

/-- glulx_random in the fallback build: both branches of the
    rand_use_native test call mt_random on the shared mt_table. -/
def fallback_random (st : FallbackState) : Nat × FallbackState :=
  if st.rand_use_native then
    ((mt_random st.mt_table).1, { st with mt_table := (mt_random st.mt_table).2 })
  else
    ((mt_random st.mt_table).1, { st with mt_table := (mt_random st.mt_table).2 })

/-- The fallback build's state at process start, before any call into
    this file: the C static initializers give rand_use_native = TRUE
    and a zeroed mt_table. -/
def fallback_init : FallbackState := ⟨true, mtZero⟩

/-- Outputs of n successive glulx_random calls in the fallback build. -/
def fallbackOutputs : Nat → FallbackState → List Nat
  | 0, _ => []
  | n + 1, st =>
    (fallback_random st).1 :: fallbackOutputs n (fallback_random st).2

/-- State after n glulx_random calls in the fallback build. -/
def fallbackIterate : Nat → FallbackState → FallbackState
  | 0, st => st
  | n + 1, st => fallbackIterate n (fallback_random st).2

/-- Modelled from the spec: the startup initialization of the RNG.  The
    code that runs it at process start is not in osdepend.c (the file
    only declares `static int rand_use_native = TRUE;` and the zeroed
    mt_table); per spec §3 and §4.3 the process starts in Native mode
    with the native source self-seeded from a time-based source, which
    the NativeSource capability performs in RAND_SET_SEED. -/
def startupState {σ : Type} (ns : NativeSource σ) (init : σ) : GlxState σ :=
  { rand_use_native := true, mt_table := mtZero, native := ns.RAND_SET_SEED init }

/-- The core generation step exactly as the spec words it (§4.2):
    result first, then t, then the xor-assignments in order, then the
    rotation of s3, each name rebound as the C assignment sequence
    overwrites it. -/
def coreStepSpec (st : MTState) : Nat × MTState :=
  let result := (rotl ((st.s1 * 5) % M32) 7 * 9) % M32
  let t := (st.s1 <<< 9) % M32
  let s0 := st.s0
  let s1 := st.s1
  let s2 := st.s2 ^^^ s0
  let s3 := st.s3 ^^^ s1
  let s1 := s1 ^^^ s2
  let s0 := s0 ^^^ s3
  let s2 := s2 ^^^ t
  let s3 := rotl s3 11
  (result, ⟨s0, s1, s2, s3⟩)

/-- The seed expansion as the spec words it (§4.1): slot i stores the
    SplitMix32 mix of the accumulator after i+1 additions of the
    constant 0x9E3779B9 to the seed, all modulo 2^32. -/
def seedExpanderSpec (seed : Nat) : MTState :=
  ⟨splitmix32 ((seed + 1 * 0x9E3779B9) % M32),
   splitmix32 ((seed + 2 * 0x9E3779B9) % M32),
   splitmix32 ((seed + 3 * 0x9E3779B9) % M32),
   splitmix32 ((seed + 4 * 0x9E3779B9) % M32)⟩

/-- A trivial native source over a unit state, used to instantiate the
    generic theorems at concrete inputs. -/
def unitSource : NativeSource Unit where
  RAND_SET_SEED := fun u => u
  RAND_GET := fun _ => (0, ())

/-- A concrete process state over the trivial native source. -/
def gstate0 : GlxState Unit :=
  { rand_use_native := true, mt_table := mtZero, native := () }

lemma M32_pos : 0 < M32 := by decide

lemma M32_eq_pow : M32 = 2 ^ 32 := by decide

lemma or_eq_zero {x y : Nat} (h : x ||| y = 0) : x = 0 ∧ y = 0 := by
  constructor
  · by_contra hx
    obtain ⟨i, hi⟩ := Nat.exists_most_significant_bit hx
    have ht : (x ||| y).testBit i = true := by rw [Nat.testBit_or, hi.1]; simp
    rw [h] at ht
    simp [Nat.zero_testBit] at ht
  · by_contra hy
    obtain ⟨i, hi⟩ := Nat.exists_most_significant_bit hy
    have ht : (x ||| y).testBit i = true := by
      rw [Nat.testBit_or, hi.1]
      simp
    rw [h] at ht
    simp [Nat.zero_testBit] at ht

lemma xor_lt_M32 {x y : Nat} (hx : x < M32) (hy : y < M32) : x ^^^ y < M32 := by
  rw [M32_eq_pow] at hx hy ⊢
  exact Nat.xor_lt_two_pow hx hy

lemma shiftRight_lt_M32 {x : Nat} (k : Nat) (hx : x < M32) : x >>> k < M32 :=
  Nat.lt_of_le_of_lt
    (by rw [Nat.shiftRight_eq_div_pow]; exact Nat.div_le_self x (2 ^ k)) hx

lemma rotl_lt_M32 {x : Nat} (k : Nat) (hx : x < M32) : rotl x k < M32 := by
  unfold rotl
  have h1 : (x <<< k) % M32 < M32 := Nat.mod_lt _ M32_pos
  have h2 : x >>> (32 - k) < M32 := shiftRight_lt_M32 _ hx
  rw [M32_eq_pow] at h1 h2 ⊢
  exact Nat.or_lt_two_pow h1 h2

lemma splitmix32_lt_M32 (s : Nat) : splitmix32 s < M32 :=
  xor_lt_M32 (Nat.mod_lt _ M32_pos) (shiftRight_lt_M32 _ (Nat.mod_lt _ M32_pos))

lemma eq_zero_of_xor_shiftRight {s k : Nat} (hk : 0 < k)
    (h : s ^^^ (s >>> k) = 0) : s = 0 := by
  have h2 : s = s >>> k := Nat.xor_eq_zero.mp h
  rcases Nat.eq_zero_or_pos s with h0 | hpos
  · exact h0
  · exfalso
    have hlt : s >>> k < s := by
      rw [Nat.shiftRight_eq_div_pow]
      exact Nat.div_lt_self hpos (Nat.one_lt_two_pow_iff.mpr (by omega))
    omega

lemma eq_zero_of_mul_mod_M32 {s c : Nat} (hs : s < M32)
    (hc : Nat.Coprime M32 c) (h : s * c % M32 = 0) : s = 0 :=
  Nat.eq_zero_of_dvd_of_lt
    (hc.dvd_of_dvd_mul_right (Nat.dvd_of_mod_eq_zero h)) hs

lemma rotl_eq_zero {x k : Nat} (hk0 : 0 < k) (hk : k ≤ 32)
    (h : rotl x k = 0) : x = 0 := by
  unfold rotl at h
  obtain ⟨hl, hr⟩ := or_eq_zero h
  rw [Nat.shiftRight_eq_div_pow] at hr
  have hx : x < 2 ^ (32 - k) := (Nat.div_eq_zero_iff (Nat.two_pow_pos _)).mp hr
  have hdvd : M32 ∣ x * 2 ^ k := by
    rw [← Nat.shiftLeft_eq]
    exact Nat.dvd_of_mod_eq_zero hl
  obtain ⟨j, hj⟩ := hdvd
  have hM : M32 = 2 ^ (32 - k) * 2 ^ k := by
    rw [M32_eq_pow, ← pow_add]
    congr 1
    omega
  have h3 : x * 2 ^ k = 2 ^ (32 - k) * j * 2 ^ k := by
    rw [hj, hM]
    ring
  have h4 : x = 2 ^ (32 - k) * j := Nat.eq_of_mul_eq_mul_right (Nat.two_pow_pos k) h3
  exact Nat.eq_zero_of_dvd_of_lt ⟨j, h4⟩ hx

lemma coprime_M32_mul1 : Nat.Coprime M32 0x85EBCA6B := by decide

lemma coprime_M32_mul2 : Nat.Coprime M32 0xC2B2AE35 := by decide

lemma coprime_M32_511 : Nat.Coprime M32 511 := by decide

lemma splitmix32_eq_zero {s : Nat} (hs : s < M32) (h : splitmix32 s = 0) :
    s = 0 := by
  simp only [splitmix32] at h
  set u1 := s ^^^ (s >>> 15) with hu1
  set u2 := u1 * 0x85EBCA6B % M32 with hu2
  set u3 := u2 ^^^ (u2 >>> 13) with hu3
  set u4 := u3 * 0xC2B2AE35 % M32 with hu4
  have hu2lt : u2 < M32 := by rw [hu2]; exact Nat.mod_lt _ M32_pos
  have hu3lt : u3 < M32 := by
    rw [hu3]
    exact xor_lt_M32 hu2lt (shiftRight_lt_M32 _ hu2lt)
  have hu1lt : u1 < M32 := by
    rw [hu1]
    exact xor_lt_M32 hs (shiftRight_lt_M32 _ hs)
  have e4 : u4 = 0 := eq_zero_of_xor_shiftRight (by omega) h
  have e3 : u3 = 0 := by
    refine eq_zero_of_mul_mod_M32 hu3lt coprime_M32_mul2 ?_
    rw [← hu4]
    exact e4
  have e2 : u2 = 0 := by
    refine eq_zero_of_xor_shiftRight (k := 13) (by omega) ?_
    rw [← hu3]
    exact e3
  have e1 : u1 = 0 := by
    refine eq_zero_of_mul_mod_M32 hu1lt coprime_M32_mul1 ?_
    rw [← hu2]
    exact e2
  refine eq_zero_of_xor_shiftRight (k := 15) (by omega) ?_
  rw [← hu1]
  exact e1

lemma mt_seed_random_bounded (seed : Nat) : (mt_seed_random seed).Bounded :=
  ⟨splitmix32_lt_M32 _, splitmix32_lt_M32 _, splitmix32_lt_M32 _,
   splitmix32_lt_M32 _⟩

lemma mt_random_bounded {st : MTState} (hb : st.Bounded) :
    (mt_random st).2.Bounded := by
  obtain ⟨h0, h1, h2, h3⟩ := hb
  exact ⟨xor_lt_M32 h0 (xor_lt_M32 h3 h1),
         xor_lt_M32 h1 (xor_lt_M32 h2 h0),
         xor_lt_M32 (xor_lt_M32 h2 h0) (Nat.mod_lt _ M32_pos),
         rotl_lt_M32 _ (xor_lt_M32 h3 h1)⟩

lemma mt_random_state_eq_zero {st : MTState} (hb : st.Bounded)
    (h : (mt_random st).2 = mtZero) : st = mtZero := by
  obtain ⟨a, b, c, d⟩ := st
  obtain ⟨ha, hbb, hc, hd⟩ := hb
  simp only [mt_random, mtZero, MTState.mk.injEq] at h
  obtain ⟨h0, h1, h2, h3⟩ := h
  have hdb : d ^^^ b = 0 := rotl_eq_zero (by omega) (by omega) h3
  have hdeq : d = b := Nat.xor_eq_zero.mp hdb
  have ha0 : a = 0 := by
    have := Nat.xor_eq_zero.mp h0
    rw [hdb] at this
    exact this
  have hbc : b = c := by
    have := Nat.xor_eq_zero.mp h1
    rw [ha0, Nat.xor_zero] at this
    exact this
  have hct : c = (b <<< 9) % M32 := by
    have := Nat.xor_eq_zero.mp h2
    rw [ha0, Nat.xor_zero] at this
    exact this
  have hb512 : b = b * 512 % M32 := by
    rw [Nat.shiftLeft_eq] at hct
    norm_num at hct
    exact hbc.trans hct
  have hmodeq : b ≡ b * 512 [MOD M32] := by
    show b % M32 = b * 512 % M32
    rw [Nat.mod_eq_of_lt hbb]
    exact hb512
  have hdvd : M32 ∣ b * 512 - b := (Nat.modEq_iff_dvd' (by omega)).mp hmodeq
  have hsub : b * 512 - b = 511 * b := by omega
  rw [hsub] at hdvd
  have hb0 : b = 0 :=
    Nat.eq_zero_of_dvd_of_lt (coprime_M32_511.dvd_of_dvd_mul_left hdvd) hbb
  simp [mtZero, ha0, hb0, hbc ▸ hb0, hdeq ▸ hb0]

lemma mt_seed_random_ne_mtZero (seed : Nat) : mt_seed_random seed ≠ mtZero := by
  intro h
  simp only [mt_seed_random, mtZero, MTState.mk.injEq] at h
  obtain ⟨h1, h2, _, _⟩ := h
  have e1 : (seed + 0x9E3779B9) % M32 = 0 :=
    splitmix32_eq_zero (Nat.mod_lt _ M32_pos) h1
  have e2 : ((seed + 0x9E3779B9) % M32 + 0x9E3779B9) % M32 = 0 :=
    splitmix32_eq_zero (Nat.mod_lt _ M32_pos) h2
  rw [e1] at e2
  simp [M32] at e2

lemma mtIterate_ne_mtZero :
    ∀ (n : Nat) (st : MTState), st.Bounded → st ≠ mtZero →
      mtIterate n st ≠ mtZero
  | 0, _, _, h => h
  | n + 1, st, hb, h =>
    mtIterate_ne_mtZero n (mt_random st).2 (mt_random_bounded hb)
      (fun hz => h (mt_random_state_eq_zero hb hz))

lemma mtstate_ext {x y : MTState} (h0 : x.s0 = y.s0) (h1 : x.s1 = y.s1)
    (h2 : x.s2 = y.s2) (h3 : x.s3 = y.s3) : x = y := by
  cases x
  cases y
  simp_all

lemma glulx_random_native {σ : Type} (ns : NativeSource σ) (st : GlxState σ)
    (h : st.rand_use_native = true) :
    glulx_random ns st =
      ((ns.RAND_GET st.native).1,
       { st with native := (ns.RAND_GET st.native).2 }) := by
  simp [glulx_random, h]

lemma glulx_random_det {σ : Type} (ns : NativeSource σ) (st : GlxState σ)
    (h : st.rand_use_native = false) :
    glulx_random ns st =
      ((mt_random st.mt_table).1,
       { st with mt_table := (mt_random st.mt_table).2 }) := by
  simp [glulx_random, h]

lemma sysOutputs_det_congr {σ1 σ2 : Type} (ns1 : NativeSource σ1)
    (ns2 : NativeSource σ2) :
    ∀ (n : Nat) (st1 : GlxState σ1) (st2 : GlxState σ2),
      st1.rand_use_native = false → st2.rand_use_native = false →
      st1.mt_table = st2.mt_table →
      sysOutputs ns1 n st1 = sysOutputs ns2 n st2 := by
  intro n
  induction n with
  | zero => intro st1 st2 h1 h2 ht; rfl
  | succ n ih =>
    intro st1 st2 h1 h2 ht
    show (glulx_random ns1 st1).1 :: sysOutputs ns1 n (glulx_random ns1 st1).2
       = (glulx_random ns2 st2).1 :: sysOutputs ns2 n (glulx_random ns2 st2).2
    rw [glulx_random_det ns1 st1 h1, glulx_random_det ns2 st2 h2, ht]
    congr 1
    exact ih _ _ h1 h2 rfl

/-- Claim C1: one call of mt_random returns rotl(s1 * 5, 7) * 9 computed
    with 32-bit wraparound multiplication, and leaves the state equal to
    the result of applying, in order, t = s1 << 9; s2 ^= s0; s3 ^= s1;
    s1 ^= s2; s0 ^= s3; s2 ^= t; s3 = rotl(s3, 11).  The first conjunct
    equates the code step with the spec's assignment sequence
    (coreStepSpec); the remaining conjuncts give the output formula and
    the closed form that the assignment sequence produces.  Both sides
    are pure functions of the incoming state, so the step depends on
    nothing else. -/
theorem mt_random_matches_core_spec (st : MTState) :
    mt_random st = coreStepSpec st ∧
    (mt_random st).1 = rotl (st.s1 * 5 % M32) 7 * 9 % M32 ∧
    (mt_random st).2 =
      ⟨st.s0 ^^^ (st.s3 ^^^ st.s1),
       st.s1 ^^^ (st.s2 ^^^ st.s0),
       (st.s2 ^^^ st.s0) ^^^ (st.s1 <<< 9 % M32),
       rotl (st.s3 ^^^ st.s1) 11⟩ :=
  ⟨rfl, rfl, rfl⟩

/-- Claim C2: mt_seed_random fills the four state slots in order with
    the SplitMix32 mix of an accumulator that starts at the seed and
    gains 0x9E3779B9 before each slot, all arithmetic wrapping at 32
    bits; seedExpanderSpec states the accumulator after i+1 additions in
    closed form. -/
theorem mt_seed_random_matches_expander_spec (seed : Nat) :
    mt_seed_random seed = seedExpanderSpec seed := by
  refine mtstate_ext ?_ ?_ ?_ ?_ <;>
    exact congrArg splitmix32 (by simp only [M32]; all_goals omega)

/-- Claim C3: glulx_setrandom with seed 0 switches to the native RNG
    and reseeds it; with any nonzero 32-bit seed it switches to the
    deterministic generator and resets mt_table to the seed expansion.
    The two branches are exhaustive over the glui32 argument. -/
theorem glulx_setrandom_cases {σ : Type} (ns : NativeSource σ)
    (st : GlxState σ) (seed : Nat) (_hseed : seed < M32) :
    (seed = 0 → glulx_setrandom ns seed st =
      { st with rand_use_native := true,
                native := ns.RAND_SET_SEED st.native }) ∧
    (seed ≠ 0 → glulx_setrandom ns seed st =
      { st with rand_use_native := false,
                mt_table := mt_seed_random seed }) := by
  constructor <;> intro h <;> simp [glulx_setrandom, h]

theorem glulx_setrandom_cases_witness :
    glulx_setrandom unitSource 5 gstate0 =
      { gstate0 with rand_use_native := false,
                     mt_table := mt_seed_random 5 } :=
  (glulx_setrandom_cases unitSource gstate0 5 (by decide)).2 (by decide)

/-- Claim C4: glulx_random returns the native source's output unchanged
    when the mode flag is set, and otherwise exactly the core generator
    step on the current mt_table.  Both operations are total Lean
    functions (as the C functions are total), so no failure case
    exists. -/
theorem glulx_random_cases {σ : Type} (ns : NativeSource σ)
    (st : GlxState σ) :
    (st.rand_use_native = true → glulx_random ns st =
      ((ns.RAND_GET st.native).1,
       { st with native := (ns.RAND_GET st.native).2 })) ∧
    (st.rand_use_native = false → glulx_random ns st =
      ((mt_random st.mt_table).1,
       { st with mt_table := (mt_random st.mt_table).2 })) :=
  ⟨glulx_random_native ns st, glulx_random_det ns st⟩

theorem glulx_random_cases_witness :
    glulx_random unitSource gstate0 =
      ((unitSource.RAND_GET gstate0.native).1,
       { gstate0 with native := (unitSource.RAND_GET gstate0.native).2 }) :=
  (glulx_random_cases unitSource gstate0).1 rfl

/-- A second native source over a different state type, used to
    instantiate the two-instance theorems at concrete inputs. -/
def natSource : NativeSource Nat where
  RAND_SET_SEED := fun n => n + 1
  RAND_GET := fun n => (n % M32, n + 1)

/-- A concrete process state over natSource. -/
def gstateNat : GlxState Nat :=
  { rand_use_native := true, mt_table := mtZero, native := 0 }

/-- Claim C5: from any prior generator/mode state, setSeed(0) followed
    by setSeed(S) with S nonzero leaves the system producing exactly
    the output sequence of an instance on which only setSeed(S) was
    called (quantified over that instance's pre-setSeed state q, which
    covers the fresh startup state): both calls end with the mode
    deterministic and mt_table = mt_seed_random S, and deterministic
    outputs depend only on mt_table. -/
theorem setseed_zero_then_seed_equiv {σ : Type} (ns : NativeSource σ)
    (prior q : GlxState σ) (S : Nat) (hS : S ≠ 0) (n : Nat) :
    sysOutputs ns n (glulx_setrandom ns S (glulx_setrandom ns 0 prior)) =
    sysOutputs ns n (glulx_setrandom ns S q) := by
  apply sysOutputs_det_congr
  · simp [glulx_setrandom, hS]
  · simp [glulx_setrandom, hS]
  · simp [glulx_setrandom, hS]

theorem setseed_zero_then_seed_equiv_witness :
    sysOutputs unitSource 2
        (glulx_setrandom unitSource 1 (glulx_setrandom unitSource 0 gstate0)) =
      sysOutputs unitSource 2 (glulx_setrandom unitSource 1 gstate0) :=
  setseed_zero_then_seed_equiv unitSource gstate0 gstate0 1 (by decide) 2

/-- Claim C6: two independent runs (possibly different native sources
    and prior states) that each call setSeed(S) with the same nonzero
    seed obtain identical output sequences on any number n of
    subsequent generation calls, in particular on 10,000 of them: in
    deterministic mode the sequence is a function of the seed alone. -/
theorem same_seed_same_outputs {σ1 σ2 : Type} (ns1 : NativeSource σ1)
    (ns2 : NativeSource σ2) (st1 : GlxState σ1) (st2 : GlxState σ2)
    (S : Nat) (hS : S ≠ 0) (n : Nat) :
    sysOutputs ns1 n (glulx_setrandom ns1 S st1) =
    sysOutputs ns2 n (glulx_setrandom ns2 S st2) := by
  apply sysOutputs_det_congr
  · simp [glulx_setrandom, hS]
  · simp [glulx_setrandom, hS]
  · simp [glulx_setrandom, hS]

theorem same_seed_same_outputs_witness :
    sysOutputs unitSource 3 (glulx_setrandom unitSource 12345 gstate0) =
      sysOutputs natSource 3 (glulx_setrandom natSource 12345 gstateNat) :=
  same_seed_same_outputs unitSource natSource gstate0 gstateNat 12345
    (by decide) 3

/-- Claim C7: for every seed in [1, 2^32-1] the expanded state is not
    the all-zero state, and it does not become all-zero within the
    first 2^16 generation steps.  The proof shows more: the SplitMix32
    mix and the xoshiro step both map only zero to zero, so the state
    stays nonzero at every step count n ≤ 2^16. -/
theorem well_seeded_never_zero (seed : Nat) (_h1 : 1 ≤ seed)
    (_h2 : seed ≤ M32 - 1) :
    mt_seed_random seed ≠ mtZero ∧
    ∀ n, n ≤ 2 ^ 16 → mtIterate n (mt_seed_random seed) ≠ mtZero := by
  refine ⟨mt_seed_random_ne_mtZero seed, fun n _ => ?_⟩
  exact mtIterate_ne_mtZero n _ (mt_seed_random_bounded seed)
    (mt_seed_random_ne_mtZero seed)

theorem well_seeded_never_zero_witness : mt_seed_random 1 ≠ mtZero :=
  (well_seeded_never_zero 1 (by decide) (by decide)).1

/-- Claim C8: at process start the mode is Native (the C initializer
    rand_use_native = TRUE) and the native source has been reseeded
    from its time-based source (the startup call is modelled from the
    spec, see startupState), so the first glulx_random call returns the
    time-seeded native output. -/
theorem startup_native_time_seeded {σ : Type} (ns : NativeSource σ)
    (init : σ) :
    (startupState ns init).rand_use_native = true ∧
    (glulx_random ns (startupState ns init)).1 =
      (ns.RAND_GET (ns.RAND_SET_SEED init)).1 :=
  ⟨rfl, rfl⟩

/-- Claim C9, counterexample: in the fallback build (RAND_GET is
    mt_random) a glulx_random call in Native mode advances the shared
    mt_table, so it does not leave the deterministic generator state
    untouched. -/
theorem fallback_native_mode_mutates_state :
    (fallback_random ⟨true, mt_seed_random 1⟩).2.mt_table ≠
      mt_seed_random 1 := by decide

/-- Claim C9 as amended: every glulx_random call leaves the mode flag
    unchanged, in either mode and in both models; in builds whose
    native RNG is separate from mt_table a Native-mode call also leaves
    mt_table untouched, but in the fallback build a Native-mode call
    advances the shared mt_table. -/
theorem glulx_random_frame :
    (∀ (σ : Type) (ns : NativeSource σ) (st : GlxState σ),
      (glulx_random ns st).2.rand_use_native = st.rand_use_native ∧
      (st.rand_use_native = true →
        (glulx_random ns st).2.mt_table = st.mt_table)) ∧
    (∀ st : FallbackState,
      (fallback_random st).2.rand_use_native = st.rand_use_native) := by
  constructor
  · intro σ ns st
    obtain ⟨flag, table, nv⟩ := st
    cases flag <;> simp [glulx_random]
  · intro st
    obtain ⟨flag, table⟩ := st
    cases flag <;> simp [fallback_random]

theorem glulx_random_frame_witness :
    (glulx_random unitSource gstate0).2.mt_table = gstate0.mt_table :=
  (glulx_random_frame.1 Unit unitSource gstate0).2 rfl

/-- Claim C10: in the fallback build, before any call to
    glulx_setrandom, mt_table is the all-zero fixed point, and every
    glulx_random call returns 0 and leaves the state all-zero. -/
theorem fallback_unseeded_all_zero :
    fallback_init.mt_table = mtZero ∧
    ∀ n : Nat, fallbackOutputs n fallback_init = List.replicate n 0 ∧
      fallbackIterate n fallback_init = fallback_init := by
  refine ⟨rfl, ?_⟩
  have hstep : fallback_random fallback_init = (0, fallback_init) := by decide
  intro n
  induction n with
  | zero => exact ⟨rfl, rfl⟩
  | succ n ih =>
    refine ⟨?_, ?_⟩
    · show (fallback_random fallback_init).1 ::
          fallbackOutputs n (fallback_random fallback_init).2 =
          List.replicate (n + 1) 0
      rw [hstep, List.replicate_succ]
      exact congrArg (List.cons 0) ih.1
    · show fallbackIterate n (fallback_random fallback_init).2 = fallback_init
      rw [hstep]
      exact ih.2
